import Mathlib

/-!
Verification of the multiplexer repository's concurrency core:
the admission semaphore (pkg/ratelimiter), the admission-controlled
acceptor (pkg/listener), the fetch dispatcher (pkg/crawler) and the
shutdown coordinator (pkg/closer), shallowly embedded in Lean.
-/

namespace Multiplexer

/-! ## Admission semaphore: pkg/ratelimiter, type rateLimiter -/

/-- State of a rateLimiter value: window is a buffered channel of capacity
limit (occupancy counts the empty structs currently buffered); closed
records whether the done channel has been closed by Done. -/
structure SemState where
  capacity : Nat
  occupancy : Nat
  closed : Bool
deriving Repr, DecidableEq

/-- Which ready case a Go select statement picks when several are ready
(Go picks one uniformly pseudo-randomly among the ready cases). -/
inductive SelectChoice
  | doneCase
  | windowCase
deriving Repr, DecidableEq

/-- Outcome of one Acquire call: granted (returned true), refused
(returned false), or blocked (neither select case was ready). -/
inductive AcquireOutcome
  | granted
  | refused
  | blocked
deriving Repr, DecidableEq

/-- Embeds rateLimiter.Acquire: a select over receiving from done and
sending into window. Receiving from done is ready iff done is closed; the
send is ready iff occupancy < capacity. When both are ready the select
picks pseudo-randomly: that pick is the choice parameter. When neither is
ready the call blocks. -/
def acquireSem (st : SemState) (choice : SelectChoice) : AcquireOutcome × SemState :=
  if st.closed then
    if st.occupancy < st.capacity then
      match choice with
      | .doneCase => (.refused, st)
      | .windowCase => (.granted, { st with occupancy := st.occupancy + 1 })
    else (.refused, st)
  else
    if st.occupancy < st.capacity then (.granted, { st with occupancy := st.occupancy + 1 })
    else (.blocked, st)

/-- Embeds rateLimiter.Done: close the done channel (sync.Once guarded,
hence idempotent). -/
def doneSem (st : SemState) : SemState := { st with closed := true }

/-- Embeds rateLimiter.Release: receive one element from window, lowering
occupancy by one. In Go the receive blocks while the buffer is empty; the
scenarios modelled in this file only invoke Release on states whose
occupancy the caller tracked. -/
def releaseSem (st : SemState) : SemState := { st with occupancy := st.occupancy - 1 }

/-! ## Admission-controlled acceptor: pkg/listener -/

/-- Embeds the connection struct's mutable part: the sync.Once guarding
its release callback. -/
structure ConnState where
  onceFired : Bool
deriving Repr, DecidableEq

/-- One accepted connection together with the semaphore it releases into
and a ghost count of how many times Release was invoked through it. -/
structure ConnSem where
  conn : ConnState
  sem : SemState
  releaseCalls : Nat
deriving Repr, DecidableEq

/-- Embeds connection.Close: close the underlying net.Conn (no semaphore
effect), then once.Do(release): only the first call runs Release; any
later call leaves the semaphore untouched. -/
def closeConn (s : ConnSem) : ConnSem :=
  if s.conn.onceFired then s
  else { conn := ⟨true⟩, sem := releaseSem s.sem, releaseCalls := s.releaseCalls + 1 }

/-- Result of listener.Accept: either the propagated error of the
underlying Accept (with the semaphore as left behind), or a fresh
connection whose close invokes Release. -/
inductive AcceptResult
  | fail (sem : SemState)
  | ok (conn : ConnState) (sem : SemState)
deriving Repr, DecidableEq

/-- Embeds listener.Accept: acquiredLock := RateLimiter.Acquire(); then
delegate to the underlying Listener.Accept (its success is the
underlyingOk parameter). If the underlying accept fails, Release iff
acquiredLock, and propagate the error. If it succeeds, return a connection
whose close invokes Release - whether or not the acquire succeeded.
A blocked acquire means Accept has not proceeded yet (none). -/
def acceptL (sem : SemState) (choice : SelectChoice) (underlyingOk : Bool) :
    Option AcceptResult :=
  match acquireSem sem choice with
  | (.blocked, _) => none
  | (out, sem1) =>
    if underlyingOk then some (.ok ⟨false⟩ sem1)
    else if out = .granted then some (.fail (releaseSem sem1))
    else some (.fail sem1)

/-- On a refused acquire the semaphore state is unchanged. -/
theorem acquireSem_refused_state (sem : SemState) (choice : SelectChoice)
    (h : (acquireSem sem choice).1 = .refused) : acquireSem sem choice = (.refused, sem) := by
  unfold acquireSem at h ⊢
  split_ifs at h ⊢ <;> cases choice <;> simp_all

/-- Claim C3 counterexample: the claim says no acquisition ever succeeds
on a closed gate. In the code, Acquire is a select over the closed done
channel and the window send; with the gate closed and a slot free both
cases are ready and Go may pick the window send, so Acquire returns true
and occupancy grows on a closed gate (capacity 1, occupancy 0, closed). -/
theorem acquire_closed_can_grant_cex :
    (acquireSem ⟨1, 0, true⟩ .windowCase).1 = .granted ∧
    (acquireSem ⟨1, 0, true⟩ .windowCase).2.occupancy = 1 := by decide

/-- Claim C3 (amended): after shutdown() no acquire blocks: it returns
immediately; an acquire finding the window full returns false with no
state change; but an acquire finding a free slot may still succeed when
the select picks the window case, so closure alone does not prevent
acquisition. -/
theorem acquire_after_shutdown (st : SemState) (choice : SelectChoice)
    (hc : st.closed = true) :
    (acquireSem st choice).1 ≠ .blocked ∧
    (st.capacity ≤ st.occupancy → acquireSem st choice = (.refused, st)) ∧
    ((acquireSem st choice).1 = .granted →
      st.occupancy < st.capacity ∧ choice = .windowCase) := by
  unfold acquireSem
  rw [hc]
  by_cases h : st.occupancy < st.capacity <;> cases choice <;> simp [h]

theorem acquire_after_shutdown_witness :
    (acquireSem ⟨1, 1, true⟩ .doneCase).1 ≠ .blocked ∧
    ((1 : Nat) ≤ 1 → acquireSem ⟨1, 1, true⟩ .doneCase = (.refused, ⟨1, 1, true⟩)) ∧
    ((acquireSem ⟨1, 1, true⟩ .doneCase).1 = .granted →
      (1 : Nat) < 1 ∧ SelectChoice.doneCase = .windowCase) :=
  acquire_after_shutdown ⟨1, 1, true⟩ .doneCase rfl

/-- Claim C4: for a connection returned by accept (release not yet fired),
however many times close is called, Release runs exactly once: after any
positive number of close calls the ghost release count is 1 and the
semaphore occupancy went down by exactly one slot. -/
theorem connection_close_releases_once (sem : SemState) (n : Nat) (hn : 1 ≤ n) :
    (closeConn^[n] ⟨⟨false⟩, sem, 0⟩).releaseCalls = 1 ∧
    (closeConn^[n] ⟨⟨false⟩, sem, 0⟩).sem.occupancy = sem.occupancy - 1 := by
  have h1 : closeConn ⟨⟨false⟩, sem, 0⟩ = ⟨⟨true⟩, releaseSem sem, 1⟩ := by
    simp [closeConn]
  have hfix : closeConn (⟨⟨true⟩, releaseSem sem, 1⟩ : ConnSem) = ⟨⟨true⟩, releaseSem sem, 1⟩ := by
    simp [closeConn]
  obtain ⟨k, rfl⟩ : ∃ k, n = k + 1 := ⟨n - 1, by omega⟩
  rw [Function.iterate_succ_apply, h1, Function.iterate_fixed hfix]
  exact ⟨rfl, rfl⟩

theorem connection_close_releases_once_witness :
    (closeConn^[3] ⟨⟨false⟩, ⟨2, 1, false⟩, 0⟩).releaseCalls = 1 ∧
    (closeConn^[3] ⟨⟨false⟩, ⟨2, 1, false⟩, 0⟩).sem.occupancy = 1 - 1 :=
  connection_close_releases_once ⟨2, 1, false⟩ 3 (by decide)

/-- Claim C10: when Acquire returns false (gate closed) yet the underlying
accept succeeds, Accept still returns a connection whose close invokes
Release: a Release can occur with no matching successful Acquire (the
success path of Accept never consults acquiredLock). -/
theorem accept_release_without_acquire (sem : SemState) (choice : SelectChoice)
    (hrefused : (acquireSem sem choice).1 = .refused) :
    acceptL sem choice true = some (.ok ⟨false⟩ sem) ∧
    (closeConn ⟨⟨false⟩, sem, 0⟩).releaseCalls = 1 := by
  have hsem := acquireSem_refused_state sem choice hrefused
  constructor
  · unfold acceptL
    rw [hsem]
    rfl
  · simp [closeConn]

theorem accept_release_without_acquire_witness :
    acceptL ⟨1, 1, true⟩ .doneCase true = some (.ok ⟨false⟩ ⟨1, 1, true⟩) ∧
    (closeConn ⟨⟨false⟩, ⟨1, 1, true⟩, 0⟩).releaseCalls = 1 :=
  accept_release_without_acquire ⟨1, 1, true⟩ .doneCase (by decide)

/-! ## Fetch dispatcher: pkg/crawler

crawler.Crawl checks the caller's context, validates every URL up front
(url.ParseRequestURI plus nonempty Host and Scheme), loads a task channel,
launches min(MaxConnections, len(urls)) workers, and collects the results
channel with a first-error latch. The nondeterministic completion-order
stream of worker results reaching the collector is a parameter of the
embedding; the URL-syntax check of the net/url standard library is
abstracted as the parameter parseOK. -/

/-- Embeds crawler.Result: SourceURL, StatusCode, ResponseBody, err. -/
structure Result where
  sourceURL : String
  statusCode : Nat
  responseBody : String
  err : Option String
deriving Repr, DecidableEq

/-- The errors Crawl can return: the caller context's error, the pre-flight
invalid url error (fmt.Errorf invalid url %q), and the per-result wrap
fmt.Errorf failed to crawl %q: %w carrying the source URL. -/
inductive CrawlErr
  | ctxDone
  | invalidURL (u : String)
  | wrapped (u : String) (e : String)
deriving Repr, DecidableEq

/-- Embeds Crawl's validation loop: the first URL failing the check
(ParseRequestURI error, or empty Host or Scheme - abstracted as parseOK)
stops the loop and becomes the invalid url error. -/
def firstInvalidURL (parseOK : String → Bool) : List String → Option String
  | [] => none
  | u :: us => if parseOK u then firstInvalidURL parseOK us else some u

/-- Embeds the worker-count computation: numWorkers := MaxConnections;
if numWorkers > len(urls) then numWorkers = len(urls). -/
def numWorkers (maxConnections : Nat) (nUrls : Nat) : Nat :=
  if maxConnections > nUrls then nUrls else maxConnections

/-- Embeds Crawl's collection loop over the results channel: out and the
exitErr latch; once exitErr is set every later result is skipped; the first
erroring result sets exitErr to the wrapped error (and cancels the child
context, which shapes which further results arrive - that effect lives in
the stream parameter, not here). -/
def collectLoop : Option CrawlErr → List Result → List Result → List Result × Option CrawlErr
  | exitErr, out, [] => (out, exitErr)
  | some e, out, _ :: rs => collectLoop (some e) out rs
  | none, out, r :: rs =>
    match r.err with
    | some e => collectLoop (some (CrawlErr.wrapped r.sourceURL e)) out rs
    | none => collectLoop none (out ++ [r]) rs

/-- What Crawl returns, plus a ghost count of the workers it launched.
results = none models Go's nil slice. -/
structure CrawlOutcome where
  results : Option (List Result)
  error : Option CrawlErr
  workersLaunched : Nat
deriving Repr, DecidableEq

/-- Number of results in a returned slice; Go's nil slice has length 0. -/
def resLen : Option (List Result) → Nat
  | none => 0
  | some l => l.length

/-- Embeds crawler.Crawl. ctxDone is whether the caller's context was
already done at entry; rs is the completion-order stream of worker results
read by the collection loop. -/
def Crawl (parseOK : String → Bool) (maxConnections : Nat) (ctxDone : Bool)
    (urls : List String) (rs : List Result) : CrawlOutcome :=
  if ctxDone then ⟨none, some .ctxDone, 0⟩
  else if urls = [] then ⟨none, none, 0⟩
  else
    match firstInvalidURL parseOK urls with
    | some u => ⟨none, some (.invalidURL u), 0⟩
    | none =>
      let nw := numWorkers maxConnections urls.length
      let collected := collectLoop none [] rs
      match collected.2 with
      | some e => ⟨none, some e, nw⟩
      | none => ⟨some collected.1, none, nw⟩

/-- The source URL and error of the first erroring result in the stream. -/
def firstErr : List Result → Option (String × String)
  | [] => none
  | r :: rs =>
    match r.err with
    | some e => some (r.sourceURL, e)
    | none => firstErr rs

/-- Worker-pool semantics in the run where no cancellation fires: the task
channel holds all URLs, each is pulled by exactly one worker and yields
exactly one result on the results channel, so the collector sees some
completion-order permutation of the per-URL results of the fetch
behaviour. -/
def NoCancelStream (fetch : String → Result) (urls : List String) (rs : List Result) : Prop :=
  rs.Perm (urls.map fetch)

/-- A concrete instance of the URL-syntax check for closed theorems: it
rejects exactly the empty string. net/url.ParseRequestURI rejects the
empty string in Go, so this agrees with the real check on every string
appearing in this file. -/
def parseOkEmptyFails (u : String) : Bool := !(u == "")

/-- Once the exitErr latch is set the loop only drains: out and the error
are unchanged. -/
theorem collectLoop_latch (e : CrawlErr) (out : List Result) (rs : List Result) :
    collectLoop (some e) out rs = (out, some e) := by
  induction rs generalizing out <;> simp_all [collectLoop]

/-- The collection loop surfaces the wrap of the first erroring result. -/
theorem collectLoop_first_error (rs : List Result) (out : List Result) (u e : String)
    (h : firstErr rs = some (u, e)) :
    (collectLoop none out rs).2 = some (CrawlErr.wrapped u e) := by
  induction rs generalizing out with
  | nil => simp [firstErr] at h
  | cons r rs ih =>
    cases hre : r.err with
    | some e2 =>
      simp [firstErr, hre] at h
      obtain ⟨hu, he⟩ := h
      subst hu he
      simp [collectLoop, hre, collectLoop_latch]
    | none =>
      simp [firstErr, hre] at h
      simp only [collectLoop, hre]
      exact ih _ h

/-- With no erroring result the loop appends every result in order. -/
theorem collectLoop_all_ok (rs out : List Result) (h : ∀ r ∈ rs, r.err = none) :
    collectLoop none out rs = (out ++ rs, none) := by
  induction rs generalizing out with
  | nil => simp [collectLoop]
  | cons r rs ih =>
    have hr : r.err = none := h r (by simp)
    simp only [collectLoop, hr]
    rw [ih _ (fun x hx => h x (by simp [hx]))]
    simp

/-- A list whose members all pass the check has no invalid URL. -/
theorem firstInvalidURL_none (parseOK : String → Bool) (urls : List String)
    (hval : ∀ u ∈ urls, parseOK u = true) : firstInvalidURL parseOK urls = none := by
  induction urls with
  | nil => rfl
  | cons u us ih =>
    have := hval u (by simp)
    simp [firstInvalidURL, this]
    exact ih (fun x hx => hval x (by simp [hx]))

/-- Claim C1: with a live context and a URL list that passes the pre-flight
check (a failing fetch task presupposes workers ran, hence validation
passed), if the completion-order stream contains an erroring result then
Crawl returns nil results and exactly the first error observed, wrapped
with its source URL; no partial result set reaches the caller. The
collection loop drains the whole stream first (all workers joined). -/
theorem crawl_first_error_wins (parseOK : String → Bool) (mx : Nat)
    (urls : List String) (rs : List Result) (u e : String)
    (hne : urls ≠ []) (hval : ∀ x ∈ urls, parseOK x = true)
    (hfe : firstErr rs = some (u, e)) :
    Crawl parseOK mx false urls rs =
      ⟨none, some (.wrapped u e), numWorkers mx urls.length⟩ := by
  unfold Crawl
  simp only [if_neg hne, firstInvalidURL_none parseOK urls hval, Bool.false_eq_true,
    if_false]
  have h2 := collectLoop_first_error rs [] u e hfe
  rw [h2]

theorem crawl_first_error_wins_witness :
    Crawl parseOkEmptyFails 4 false ["http://a", "http://b"]
        [⟨"http://b", 0, "", some "boom"⟩, ⟨"http://a", 200, "x", none⟩] =
      ⟨none, some (.wrapped "http://b" "boom"), numWorkers 4 2⟩ :=
  crawl_first_error_wins parseOkEmptyFails 4 ["http://a", "http://b"]
    [⟨"http://b", 0, "", some "boom"⟩, ⟨"http://a", 200, "x", none⟩]
    "http://b" "boom" (by decide) (by decide) (by decide)

/-- Claim C2 counterexample: the claim says a malformed URL does not fail
the whole call pre-flight and instead surfaces as a per-task
request-construction error. In the code, Crawl validates every URL before
starting any worker: on the list with the malformed (empty) URL it returns
the bulk invalid url error with zero workers launched and no per-task
result ever produced. -/
theorem crawl_invalid_url_preflight_cex :
    Crawl parseOkEmptyFails 4 false ["", "http://ok"] [] =
      ⟨none, some (.invalidURL ""), 0⟩ := by decide

/-- Claim C2 (amended): a URL failing the pre-flight syntax check makes
Crawl fail the whole call before launching any worker, returning the
invalid url error naming the first failing URL; only URLs passing the
check can reach the per-task request-construction path. -/
theorem crawl_invalid_url_preflight (parseOK : String → Bool) (mx : Nat)
    (urls : List String) (rs : List Result) (u : String)
    (hne : urls ≠ []) (hinv : firstInvalidURL parseOK urls = some u) :
    Crawl parseOK mx false urls rs = ⟨none, some (.invalidURL u), 0⟩ := by
  unfold Crawl
  simp only [if_neg hne, hinv, Bool.false_eq_true, if_false]

theorem crawl_invalid_url_preflight_witness :
    Crawl parseOkEmptyFails 4 false ["http://ok", ""] [] =
      ⟨none, some (.invalidURL ""), 0⟩ :=
  crawl_invalid_url_preflight parseOkEmptyFails 4 ["http://ok", ""] [] ""
    (by decide) (by decide)

/-- Claim C5 counterexample: the claim says every non-empty URL list gets
min(max, len) workers. A non-empty list containing a URL that fails the
pre-flight check gets zero workers, while min(4, 1) = 1. -/
theorem crawl_worker_count_cex :
    (Crawl parseOkEmptyFails 4 false [""] []).workersLaunched ≠
      min 4 ([""] : List String).length := by decide

/-- Claim C5 (amended): for every non-empty URL list all of whose entries
pass the pre-flight syntax check, evaluated with a not-yet-done context,
Crawl launches exactly min(configured max connections, len(urls)) workers
- and hence never more than either bound. -/
theorem crawl_worker_count (parseOK : String → Bool) (mx : Nat)
    (urls : List String) (rs : List Result)
    (hne : urls ≠ []) (hval : ∀ x ∈ urls, parseOK x = true) :
    (Crawl parseOK mx false urls rs).workersLaunched = min mx urls.length := by
  unfold Crawl
  simp only [if_neg hne, firstInvalidURL_none parseOK urls hval, Bool.false_eq_true,
    if_false]
  have hw : numWorkers mx urls.length = min mx urls.length := by
    unfold numWorkers
    split <;> omega
  cases hc : (collectLoop none [] rs).2 <;> simp [hw]

theorem crawl_worker_count_witness :
    (Crawl parseOkEmptyFails 3 false ["http://a", "http://b"] []).workersLaunched =
      min 3 (["http://a", "http://b"] : List String).length :=
  crawl_worker_count parseOkEmptyFails 3 ["http://a", "http://b"] []
    (by decide) (by decide)

/-- Claim C6: with a live context, if every fetch succeeds (and the fetch
behaviour is consistent with the syntax check: a URL failing
ParseRequestURI cannot fetch successfully, since the request is never
issued or is refused for a missing scheme or host), then for any
completion-order stream of the no-cancellation run Crawl returns no error
and as many results as input URLs. -/
theorem crawl_all_success_counts (parseOK : String → Bool) (fetch : String → Result)
    (mx : Nat) (urls : List String) (rs : List Result)
    (hok : ∀ u ∈ urls, (fetch u).err = none)
    (hlink : ∀ u ∈ urls, (fetch u).err = none → parseOK u = true)
    (hstream : NoCancelStream fetch urls rs) :
    (Crawl parseOK mx false urls rs).error = none ∧
    resLen (Crawl parseOK mx false urls rs).results = urls.length := by
  by_cases hne : urls = []
  · subst hne
    have : rs = [] := by
      have := hstream.length_eq
      simpa using List.length_eq_zero.mp (by simpa using this)
    subst this
    constructor <;> rfl
  · have hval : ∀ x ∈ urls, parseOK x = true := fun x hx => hlink x hx (hok x hx)
    have hallok : ∀ r ∈ rs, r.err = none := by
      intro r hr
      have hmem : r ∈ urls.map fetch := hstream.mem_iff.mp hr
      obtain ⟨u, hu, rfl⟩ := List.mem_map.mp hmem
      exact hok u hu
    unfold Crawl
    simp only [if_neg hne, firstInvalidURL_none parseOK urls hval, Bool.false_eq_true,
      if_false]
    rw [collectLoop_all_ok rs [] hallok]
    simp [resLen, hstream.length_eq]

theorem crawl_all_success_counts_witness :
    (Crawl parseOkEmptyFails 4 false ["http://a"] [⟨"http://a", 200, "\x7b\x7d", none⟩]).error
        = none ∧
    resLen (Crawl parseOkEmptyFails 4 false ["http://a"]
        [⟨"http://a", 200, "\x7b\x7d", none⟩]).results = (["http://a"] : List String).length :=
  crawl_all_success_counts parseOkEmptyFails
    (fun u => ⟨u, 200, "\x7b\x7d", none⟩) 4 ["http://a"]
    [⟨"http://a", 200, "\x7b\x7d", none⟩]
    (by decide) (by intro u hu _; simp at hu; subst hu; decide)
    (List.Perm.refl _)

/-- Claim C7: with a not-yet-done context, the empty URL list makes Crawl
return before doing any work: nil results (Go's nil slice, the empty
result set), no error, zero workers - for any stream. -/
theorem crawl_empty_urls (parseOK : String → Bool) (mx : Nat) (rs : List Result) :
    Crawl parseOK mx false [] rs = ⟨none, none, 0⟩ := rfl

/-! ## Shutdown coordinator: pkg/closer

closer holds a mutex-protected slice of hooks, a sync.Once guarding Close,
and a done channel closed after every hook has run and its error has been
collected (and logged, never propagated). Close is split into observable
steps: the once-guarded takeover of the pending slice, the completion of
each launched hook, and the close of done once every launched hook has
finished (Go reaches close(c.done) via defer exactly after the collection
loop has received one error value per launched hook). -/

/-- One registered shutdown hook: an identifier and the error the function
returns when run (logged by Close, never propagated). -/
structure Hook where
  id : Nat
  hookErr : Option String
deriving Repr, DecidableEq

/-- State of a closer value. fired: the sync.Once was consumed; done: the
done channel is closed; funcs: the pending registered hooks; running:
hooks launched by the trigger and not yet finished; executed: finished
hooks, in completion order (ghost); snapshot: the pending slice taken over
by the first trigger (ghost). -/
structure CloserState where
  fired : Bool
  done : Bool
  funcs : List Hook
  running : List Hook
  executed : List Hook
  snapshot : List Hook
deriving Repr, DecidableEq

/-- The state closer.New returns (before any signal or call). -/
def initCloser : CloserState :=
  { fired := false, done := false, funcs := [], running := [], executed := [], snapshot := [] }

/-- Embeds closer.Add: append the hooks to the pending slice under the
mutex. -/
def addC (fs : List Hook) (st : CloserState) : CloserState :=
  { st with funcs := st.funcs ++ fs }

/-- Embeds the entry of closer.Close: once.Do - a later call changes
nothing; the first call takes over the pending slice (c.funcs = nil) and
launches every taken hook concurrently. -/
def triggerC (st : CloserState) : CloserState :=
  if st.fired then st
  else { st with fired := true, funcs := [], running := st.funcs, snapshot := st.funcs }

/-- One launched hook finishes: its error value is received by Close's
collection loop (and logged if non-nil - the loop continues regardless). -/
def hookFinishC (h : Hook) (st : CloserState) : CloserState :=
  if h ∈ st.running then
    { st with running := st.running.erase h, executed := st.executed ++ [h] }
  else st

/-- Embeds the deferred close(c.done): reached exactly when the collection
loop has received every launched hook's error, i.e. no hook is still
running. -/
def finishC (st : CloserState) : CloserState :=
  if st.fired && st.running.isEmpty then { st with done := true } else st

/-- Embeds closer.Wait: receiving from done unblocks iff done is closed. -/
def waitUnblocked (st : CloserState) : Bool := st.done

/-- The concurrent interface of the closer: any interleaving of Add calls,
Close calls, hook completions and the final close of done. -/
inductive CloserStep : CloserState → CloserState → Prop
  | add (fs : List Hook) {st : CloserState} : CloserStep st (addC fs st)
  | trigger {st : CloserState} : CloserStep st (triggerC st)
  | hookFinish (h : Hook) {st : CloserState} : CloserStep st (hookFinishC h st)
  | finish {st : CloserState} : CloserStep st (finishC st)

/-- States a closer can reach from construction. -/
inductive CloserReach : CloserState → Prop
  | init : CloserReach initCloser
  | step {st st' : CloserState} : CloserReach st → CloserStep st st' → CloserReach st'

/-- The closer's global invariant: before the first trigger nothing has
run and done is open; after the trigger, finished plus still-running hooks
are exactly the taken-over snapshot; done is closed only with the trigger
consumed and no hook still running. -/
def CloserInv (st : CloserState) : Prop :=
  (st.fired = false → st.running = [] ∧ st.executed = [] ∧ st.snapshot = [] ∧ st.done = false) ∧
  (st.fired = true → (st.executed ++ st.running).Perm st.snapshot) ∧
  (st.done = true → st.fired = true ∧ st.running = [])

theorem closerInv_reach {st : CloserState} (h : CloserReach st) : CloserInv st := by
  induction h with
  | init => refine ⟨fun _ => ⟨rfl, rfl, rfl, rfl⟩, fun h => by simp [initCloser] at h, fun h => by simp [initCloser] at h⟩
  | step hr hs ih =>
    obtain ⟨inv1, inv2, inv3⟩ := ih
    cases hs with
    | add fs =>
      refine ⟨fun hf => ?_, fun hf => ?_, fun hd => ?_⟩
      · exact inv1 hf
      · exact inv2 hf
      · exact inv3 hd
    | trigger =>
      rename_i st
      unfold triggerC
      by_cases hf : st.fired
      · simp only [hf, if_true]
        exact ⟨inv1, inv2, inv3⟩
      · simp only [hf, if_false]
        obtain ⟨hrun, hex, _, hdone⟩ := inv1 (by simpa using hf)
        refine ⟨fun h => by simp at h, fun _ => ?_, fun hd => by simp [hdone] at hd⟩
        simp [hex]
    | hookFinish h =>
      rename_i st
      unfold hookFinishC
      by_cases hmem : h ∈ st.running
      · simp only [hmem, if_true]
        have hfired : st.fired = true := by
          by_contra hf
          have := (inv1 (by simpa using hf)).1
          simp [this] at hmem
        have hperm := inv2 hfired
        refine ⟨fun hf => by simp [hfired] at hf, fun _ => ?_, fun hd => ?_⟩
        · have h1 : st.executed ++ [h] ++ st.running.erase h
              = st.executed ++ (h :: st.running.erase h) := by simp
          rw [h1]
          refine List.Perm.trans (List.Perm.append_left st.executed ?_) hperm
          exact (List.perm_cons_erase hmem).symm
        · obtain ⟨_, hrun⟩ := inv3 hd
          simp [hrun] at hmem
      · simp only [hmem, if_false]
        exact ⟨inv1, inv2, inv3⟩
    | finish =>
      rename_i st
      unfold finishC
      by_cases hc : st.fired && st.running.isEmpty
      · simp only [hc, if_true]
        have hf : st.fired = true := by
          cases hfe : st.fired
          · simp [hfe] at hc
          · rfl
        have hrn : st.running = [] := by
          cases hrne : st.running.isEmpty
          · simp [hrne] at hc
          · simpa using hrne
        refine ⟨fun h => by simp [hf] at h, fun _ => inv2 hf, fun _ => ⟨hf, hrn⟩⟩
      · simp only [hc, if_false]
        exact ⟨inv1, inv2, inv3⟩

/-- Claim C8: trigger is idempotent - a second Close call is a no-op on
any state, since the first one set the once - and in any reachable state
where done has been closed, the executed hooks are exactly (a permutation
of) the snapshot of hooks registered before the first trigger: each ran
exactly once in total across the process. -/
theorem closer_trigger_idempotent_once (st : CloserState) (hr : CloserReach st) :
    triggerC (triggerC st) = triggerC st ∧
    (st.done = true → st.executed.Perm st.snapshot) := by
  obtain ⟨inv1, inv2, inv3⟩ := closerInv_reach hr
  constructor
  · unfold triggerC
    by_cases hf : st.fired <;> simp [hf]
  · intro hd
    obtain ⟨hf, hrn⟩ := inv3 hd
    have := inv2 hf
    simpa [hrn] using this

/-- Claim C9: Wait unblocks exactly when done is closed; in any reachable
state with done closed, no launched hook is still running and every hook
of the trigger-time snapshot has finished - including hooks that returned
an error, since the collection loop only logs errors and continues. A Wait
called once done is closed returns immediately. -/
theorem closer_wait_after_all_hooks (st : CloserState) (hr : CloserReach st)
    (hd : st.done = true) :
    st.running = [] ∧ (∀ h ∈ st.snapshot, h ∈ st.executed) ∧ waitUnblocked st = true := by
  obtain ⟨inv1, inv2, inv3⟩ := closerInv_reach hr
  obtain ⟨hf, hrn⟩ := inv3 hd
  have hperm : st.executed.Perm st.snapshot := by simpa [hrn] using inv2 hf
  exact ⟨hrn, fun h hh => hperm.mem_iff.mpr hh, hd⟩

/-- A concrete run: register two hooks (one erroring), trigger, let both
finish, close done. -/
def demoDone : CloserState :=
  finishC (hookFinishC ⟨2, some "boom"⟩ (hookFinishC ⟨1, none⟩
    (triggerC (addC [⟨1, none⟩, ⟨2, some "boom"⟩] initCloser))))

theorem demoDone_reach : CloserReach demoDone :=
  CloserReach.step
    (CloserReach.step
      (CloserReach.step
        (CloserReach.step
          (CloserReach.step CloserReach.init (CloserStep.add [⟨1, none⟩, ⟨2, some "boom"⟩]))
          CloserStep.trigger)
        (CloserStep.hookFinish ⟨1, none⟩))
      (CloserStep.hookFinish ⟨2, some "boom"⟩))
    CloserStep.finish

theorem closer_trigger_idempotent_once_witness :
    triggerC (triggerC demoDone) = triggerC demoDone ∧
    (demoDone.done = true → demoDone.executed.Perm demoDone.snapshot) :=
  closer_trigger_idempotent_once demoDone demoDone_reach

theorem closer_wait_after_all_hooks_witness :
    demoDone.running = [] ∧ (∀ h ∈ demoDone.snapshot, h ∈ demoDone.executed) ∧
    waitUnblocked demoDone = true :=
  closer_wait_after_all_hooks demoDone demoDone_reach (by decide)

end Multiplexer
